import Mathlib

/-!
Shallow embedding of the libre-converter-api conversion service
(src/main.py) : the format matrix, the request validator, the admission
check, and the conversion executor with its structured-event log.
Strings are modelled as Lean `String` / `List Char`; byte payloads as
`String`; the external engine as an abstract result datum.
-/

namespace LibreConvert

/-- A conversion rule: (engine filter name, output MIME type), as stored in
the `CONVERSIONS` dict values of src/main.py. -/
abbrev Rule := String × String

/-- The `CONVERSIONS` format matrix of src/main.py lines 150-222, transcribed
as an association list: input extension ↦ list of (output extension, rule),
in source order. -/
def CONVERSIONS : List (String × List (String × Rule)) := [
  ("doc", [
    ("docx", ("MS Word 2007 XML", "application/vnd.openxmlformats-officedocument.wordprocessingml.document")),
    ("pdf", ("writer_pdf_Export", "application/pdf")),
    ("odt", ("writer8", "application/vnd.oasis.opendocument.text")),
    ("txt", ("Text", "text/plain")),
    ("rtf", ("Rich Text Format", "application/rtf")),
    ("html", ("HTML (StarWriter)", "text/html"))]),
  ("docx", [
    ("doc", ("MS Word 97", "application/msword")),
    ("pdf", ("writer_pdf_Export", "application/pdf")),
    ("odt", ("writer8", "application/vnd.oasis.opendocument.text")),
    ("txt", ("Text", "text/plain")),
    ("rtf", ("Rich Text Format", "application/rtf")),
    ("html", ("HTML (StarWriter)", "text/html"))]),
  ("odt", [
    ("doc", ("MS Word 97", "application/msword")),
    ("docx", ("MS Word 2007 XML", "application/vnd.openxmlformats-officedocument.wordprocessingml.document")),
    ("pdf", ("writer_pdf_Export", "application/pdf")),
    ("txt", ("Text", "text/plain")),
    ("rtf", ("Rich Text Format", "application/rtf")),
    ("html", ("HTML (StarWriter)", "text/html"))]),
  ("rtf", [
    ("doc", ("MS Word 97", "application/msword")),
    ("docx", ("MS Word 2007 XML", "application/vnd.openxmlformats-officedocument.wordprocessingml.document")),
    ("pdf", ("writer_pdf_Export", "application/pdf")),
    ("odt", ("writer8", "application/vnd.oasis.opendocument.text"))]),
  ("xls", [
    ("xlsx", ("Calc MS Excel 2007 XML", "application/vnd.openxmlformats-officedocument.spreadsheetml.sheet")),
    ("pdf", ("calc_pdf_Export", "application/pdf")),
    ("ods", ("calc8", "application/vnd.oasis.opendocument.spreadsheet")),
    ("csv", ("Text - txt - csv (StarCalc):44,34,76", "text/csv"))]),
  ("xlsx", [
    ("xls", ("MS Excel 97", "application/vnd.ms-excel")),
    ("pdf", ("calc_pdf_Export", "application/pdf")),
    ("ods", ("calc8", "application/vnd.oasis.opendocument.spreadsheet")),
    ("csv", ("Text - txt - csv (StarCalc):44,34,76", "text/csv"))]),
  ("ods", [
    ("xls", ("MS Excel 97", "application/vnd.ms-excel")),
    ("xlsx", ("Calc MS Excel 2007 XML", "application/vnd.openxmlformats-officedocument.spreadsheetml.sheet")),
    ("pdf", ("calc_pdf_Export", "application/pdf")),
    ("csv", ("Text - txt - csv (StarCalc):44,34,76", "text/csv"))]),
  ("csv", [
    ("xls", ("MS Excel 97", "application/vnd.ms-excel")),
    ("xlsx", ("Calc MS Excel 2007 XML", "application/vnd.openxmlformats-officedocument.spreadsheetml.sheet")),
    ("ods", ("calc8", "application/vnd.oasis.opendocument.spreadsheet"))]),
  ("ppt", [
    ("pptx", ("Impress MS PowerPoint 2007 XML", "application/vnd.openxmlformats-officedocument.presentationml.presentation")),
    ("pdf", ("impress_pdf_Export", "application/pdf")),
    ("odp", ("impress8", "application/vnd.oasis.opendocument.presentation"))]),
  ("pptx", [
    ("ppt", ("MS PowerPoint 97", "application/vnd.ms-powerpoint")),
    ("pdf", ("impress_pdf_Export", "application/pdf")),
    ("odp", ("impress8", "application/vnd.oasis.opendocument.presentation"))]),
  ("odp", [
    ("ppt", ("MS PowerPoint 97", "application/vnd.ms-powerpoint")),
    ("pptx", ("Impress MS PowerPoint 2007 XML", "application/vnd.openxmlformats-officedocument.presentationml.presentation")),
    ("pdf", ("impress_pdf_Export", "application/pdf"))]),
  ]

/-- Embeds `ext in CONVERSIONS` / `CONVERSIONS.get(ext)` : look up the output table
for an input extension. -/
def lookupOutputs (ext : String) : Option (List (String × Rule)) :=
  (CONVERSIONS.find? (fun p => p.1 == ext)).map (fun p => p.2)

/-- Embeds `CONVERSIONS.keys()`. -/
def inputKeys : List String := CONVERSIONS.map (fun p => p.1)

/-- Lexicographic strict order on character lists by code point: exactly
Python's `<` on strings. -/
def strLtL : List Char → List Char → Bool
  | [], [] => false
  | [], _ :: _ => true
  | _ :: _, [] => false
  | a :: as, b :: bs =>
    if a.toNat < b.toNat then true
    else if b.toNat < a.toNat then false
    else strLtL as bs

/-- Python's `<=` on strings (code-point lexicographic). -/
def strLe (a b : String) : Bool := !(strLtL b.toList a.toList)

/-- Insertion into a list sorted by `strLe`; together with `pySorted` this
embeds Python's `sorted()` on a list of strings (lexicographic order on
code points). -/
def insSorted (x : String) : List String → List String
  | [] => [x]
  | y :: ys => if strLe x y then x :: y :: ys else y :: insSorted x ys

/-- Python `sorted(list_of_strings)`. -/
def pySorted (l : List String) : List String := l.foldr insSorted []

/-- Python `", ".join(l)`. -/
def joinComma (l : List String) : String := String.intercalate ", " l

/-- Index of the last `'.'` in a character list (`name.rfind('.')` in the
CPython implementation of `PurePath.suffix`), `none` when there is no dot. -/
def lastDotIdx : List Char → Option Nat
  | [] => none
  | c :: cs =>
    match lastDotIdx cs with
    | some i => some (i + 1)
    | none => if c = '.' then some 0 else none

/-- CPython `PurePath.suffix` on a path's final component `name`:
`name[i:]` for `i = name.rfind('.')` when `0 < i < len(name) - 1`,
else the empty string. -/
def pySuffixL (cs : List Char) : List Char :=
  match lastDotIdx cs with
  | none => []
  | some i => if 0 < i ∧ i < cs.length - 1 then cs.drop i else []

/-- Split a character list on `'/'`, always returning at least one piece. -/
def splitSlash : List Char → List (List Char)
  | [] => [[]]
  | c :: cs =>
    match splitSlash cs with
    | [] => [[]]
    | h :: t => if c = '/' then [] :: h :: t else (c :: h) :: t

/-- CPython `PurePath(filename).name`: the last non-empty `'/'`-separated
component (empty when there is none). -/
def pathNameL (cs : List Char) : List Char :=
  ((splitSlash cs).filter (fun p => p ≠ [])).getLastD []

/-- Embeds `Path(filename).suffix.lower().lstrip(".")` of src/main.py line 227,
the derived input extension of a filename. -/
def extOfL (cs : List Char) : List Char :=
  ((pySuffixL (pathNameL cs)).map Char.toLower).dropWhile (fun c => c = '.')

/-- String-level wrapper for `extOfL`. -/
def extOf (filename : String) : String := String.mk (extOfL filename.toList)

/-- The error taxonomy surfaced by the endpoint (each constructor is one
`HTTPException` site of src/main.py, carrying its detail text where the
claims refer to it). -/
inductive Err where
  | MissingFilename
  | UnsupportedInputFormat (detail : String)
  | UnsupportedConversionPair (detail : String)
  | PayloadTooLarge (detail : String)
  | TooManyConcurrentRequests
  | ConversionTimeout
  | EngineError (detail : String)
  | NoOutputProduced
  | UnexpectedError (detail : String)
  deriving DecidableEq, Repr

/-- Detail text of the `UnsupportedInputFormat` error (src/main.py line 230). -/
def inputFormatMsg (ext : String) : String :=
  "Unsupported input format: ." ++ ext ++ ". Supported: " ++
    joinComma (pySorted inputKeys)

/-- Embeds `get_input_ext` of src/main.py lines 225-231. -/
def get_input_ext (filename : String) : Except Err String :=
  match lookupOutputs (extOf filename) with
  | some _ => .ok (extOf filename)
  | none => .error (.UnsupportedInputFormat (inputFormatMsg (extOf filename)))

/-- Detail text of the `UnsupportedConversionPair` error
(src/main.py line 266). -/
def pairMsg (input_ext output_ext : String) (outs : List (String × Rule)) : String :=
  "Cannot convert ." ++ input_ext ++ " to ." ++ output_ext ++ ". Available: " ++
    joinComma (pySorted (outs.map (fun o => o.1)))

/-- Detail text of the `PayloadTooLarge` error (src/main.py lines 273-276). -/
def sizeMsg (size maxSize : Nat) : String :=
  "File too large: " ++ toString size ++ " bytes. Max: " ++ toString maxSize ++ " bytes"

/-- The resolved triple produced by validation: input extension, normalized
output extension, and the matrix rule (filter name, MIME type). -/
structure ValidRequest where
  inputExt : String
  outputExt : String
  filterName : String
  mimeType : String
  deriving DecidableEq, Repr

/-- Embeds `to.lower().lstrip(".")` of src/main.py line 262. -/
def normTarget (target : String) : String :=
  String.mk ((target.toList.map Char.toLower).dropWhile (fun c => c = '.'))

/-- Python truthiness test `not file.filename` (src/main.py line 258):
the filename is `None` or the empty string. -/
def filenameFalsy : Option String → Bool
  | none => true
  | some s => s == ""

/-- The validation phase of the `convert` endpoint, src/main.py lines
258-278: filename presence, input extension lookup, conversion-pair lookup,
then the size check on the fully-read payload. -/
def validate (filename : Option String) (target : String)
    (payloadLen maxFileSize : Nat) : Except Err ValidRequest :=
  if filenameFalsy filename then .error .MissingFilename
  else
    match get_input_ext (filename.getD "") with
    | .error e => .error e
    | .ok input_ext =>
      let output_ext := normTarget target
      let outs := (lookupOutputs input_ext).getD []
      match outs.find? (fun o => o.1 == output_ext) with
      | none => .error (.UnsupportedConversionPair (pairMsg input_ext output_ext outs))
      | some (_, filter_name, mime_type) =>
        if payloadLen > maxFileSize then
          .error (.PayloadTooLarge (sizeMsg payloadLen maxFileSize))
        else
          .ok ⟨input_ext, output_ext, filter_name, mime_type⟩

/-- The request resolves to a declared conversion pair: the filename is
present and the (input extension, normalized output extension) pair is in
the Format Matrix. This is exactly the condition under which the endpoint
reaches the size check of src/main.py line 272. -/
def pairOK (filename : Option String) (target : String) : Bool :=
  !filenameFalsy filename &&
    (((lookupOutputs (extOf (filename.getD ""))).getD []).find?
      (fun o => o.1 == normTarget target)).isSome

/-- Embeds the directive expression of src/main.py line 293
(`output_ext:filter_name` if the filter name is truthy, else the bare
output extension): the engine convert-to directive. -/
def convertToArg (output_ext filter_name : String) : String :=
  if filter_name == "" then output_ext else output_ext ++ ":" ++ filter_name

/-- Default of `MAX_CONCURRENT` (src/main.py line 32). -/
def MAX_CONCURRENT : Nat := 10

/-- Embeds `asyncio.Semaphore.locked()`: true when no permit is free. -/
def semLocked (value : Nat) : Bool := value == 0

/-- The admission test of src/main.py lines 281-284:
`not conversion_semaphore.locked() or conversion_semaphore._value > 0`.
All three reads happen without an intervening await, so on the single
event loop the test and the subsequent acquire are one atomic step. -/
def admissionCheck (value : Nat) : Bool :=
  !semLocked value || decide (value > 0)

/-- The admission permit pool: `value` free permits, `held` permits
currently held by in-flight conversions. -/
structure Pool where
  value : Nat
  held : Nat
  deriving DecidableEq, Repr

/-- Pool at startup: `asyncio.Semaphore(config.MAX_CONCURRENT)`
(src/main.py line 103). -/
def initPool : Pool := ⟨MAX_CONCURRENT, 0⟩

/-- One request's admission step: the lines 281-284 test followed (only on
success) by the `async with conversion_semaphore` acquire, which decrements
the free-permit count; `none` models the immediate, non-blocking HTTP 429
rejection. -/
def tryAcquire (p : Pool) : Option Pool :=
  if admissionCheck p.value then some ⟨p.value - 1, p.held + 1⟩ else none

/-- Exit of the `async with conversion_semaphore` block: the permit is
returned on every exit path. -/
def releasePermit (p : Pool) : Pool := ⟨p.value + 1, p.held - 1⟩

/-- Pool states reachable from startup under the scoped acquire/release
discipline of the endpoint: a release always matches a previously granted
acquire (`0 < held`). -/
inductive Reachable : Pool → Prop
  | init : Reachable initPool
  | acq {p p' : Pool} : Reachable p → tryAcquire p = some p' → Reachable p'
  | rel {p : Pool} : Reachable p → 0 < p.held → Reachable (releasePermit p)

/-- Result of the external engine process (`subprocess.run` at
src/main.py lines 296-303), abstracted: it either exceeds the timeout,
exits with a status code, diagnostic text on stderr and a set of files
written into the scratch directory, or raises some other exception. -/
inductive EngineResult where
  | timedOut
  | exited (returncode : Nat) (stderr : String) (written : List (String × String))
  | crashed (exc : String)
  deriving DecidableEq, Repr

/-- The structured events emitted by `log_event` on the conversion paths
of the endpoint (src/main.py lines 305-311, 315-321, 335-343), with the
fields the claims refer to; wall-clock fields are not modelled. -/
inductive Event where
  | conversionTimeout (input_format output_format : String) (input_size : Nat)
  | conversionError (input_format output_format error : String)
  | conversionComplete (input_format output_format : String)
      (input_size output_size : Nat)
  deriving DecidableEq, Repr

/-- Python `s[:500]` character truncation. -/
def takeChars (n : Nat) (s : String) : String := String.mk (s.toList.take n)

/-- Membership test of `Path(tmpdir).glob` with pattern `*.output_ext` for one directory
entry name: the pattern `*.ext` matches exactly the names that end in
`"." ++ ext` (the `*` wildcard never crosses a path separator, so a name
containing `'/'` is not a direct entry and never matches). -/
def globMatch (name ext : String) : Bool :=
  !(name.toList.contains '/') && ('.' :: ext.toList).isSuffixOf name.toList

/-- The whole input of one request to the `convert` endpoint, together
with the environment it runs against: the configured maximum upload size,
the free-permit count of the semaphore at the admission test, and the
behaviour of the external engine for this job. -/
structure HandlerInput where
  filename : Option String
  target : String
  payload : String
  maxFileSize : Nat
  semValue : Nat
  engine : EngineResult

/-- Everything observable about one request: the HTTP-level result
(converted content and MIME type, or an error), the structured events
emitted, and whether a scratch directory was created and removed. -/
structure HandlerOutput where
  response : Except Err (String × String)
  events : List Event
  scratchCreated : Bool
  scratchRemoved : Bool
  deriving Repr

/-- Body of the `with tempfile.TemporaryDirectory()` block, src/main.py
lines 288-330: stage the input under its original filename, run the engine,
classify timeout / non-zero exit / no output / success. An error value
models an exception propagating out of the block. -/
def executeJob (v : ValidRequest) (fn : String) (payload : String)
    (er : EngineResult) : Except Err (String × String) × List Event :=
  match er with
  | .timedOut =>
      (.error .ConversionTimeout,
       [.conversionTimeout v.inputExt v.outputExt payload.length])
  | .crashed exc => (.error (.UnexpectedError exc), [])
  | .exited rc stderr written =>
    if rc != 0 then
      (.error (.EngineError ("Conversion failed: " ++ stderr)),
       [.conversionError v.inputExt v.outputExt (takeChars 500 stderr)])
    else
      let entries := (fn, payload) :: written
      match entries.filter (fun e => globMatch e.1 v.outputExt) with
      | [] => (.error .NoOutputProduced, [])
      | f :: _ =>
          (.ok (f.2, v.mimeType),
           [.conversionComplete v.inputExt v.outputExt payload.length f.2.length])

/-- The `convert` endpoint, src/main.py lines 247-350: validation, the
admission test, then the scratch-directory scope around the engine job.
The `with` statement removes the scratch directory on every exit of its
block, so `scratchRemoved` is set exactly when the block was entered. -/
def convertHandler (inp : HandlerInput) : HandlerOutput :=
  match validate inp.filename inp.target inp.payload.length inp.maxFileSize with
  | .error e => ⟨.error e, [], false, false⟩
  | .ok v =>
    if admissionCheck inp.semValue then
      let r := executeJob v (inp.filename.getD "") inp.payload inp.engine
      ⟨r.1, r.2, true, true⟩
    else
      ⟨.error .TooManyConcurrentRequests, [], false, false⟩

/-! ### Helper lemmas -/

theorem admissionCheck_iff (v : Nat) : admissionCheck v = true ↔ 0 < v := by
  cases v <;> simp [admissionCheck, semLocked]

theorem lastDotIdx_of_forall_ne :
    ∀ (cs : List Char), (∀ c ∈ cs, c ≠ '.') → lastDotIdx cs = none
  | [], _ => rfl
  | c :: cs, h => by
    have hc : c ≠ '.' := h c (List.mem_cons_self c cs)
    have ih := lastDotIdx_of_forall_ne cs (fun x hx => h x (List.mem_cons_of_mem c hx))
    simp [lastDotIdx, ih, hc]

theorem lastDotIdx_append {rest : List Char} {i : Nat} :
    ∀ (front : List Char), lastDotIdx rest = some i →
      lastDotIdx (front ++ rest) = some (front.length + i)
  | [], h => by simpa using h
  | c :: front, h => by
    have ih := lastDotIdx_append front h
    simp [lastDotIdx, ih]
    omega

theorem lastDotIdx_dot_cons {out : List Char} (h : lastDotIdx out = none) :
    lastDotIdx ('.' :: out) = some 0 := by
  simp [lastDotIdx, h]

theorem pySuffixL_decomp {front out : List Char}
    (hnd : ∀ c ∈ out, c ≠ '.') (hne : out ≠ []) :
    pySuffixL (front ++ '.' :: out) = if front = [] then [] else '.' :: out := by
  have h1 : lastDotIdx out = none := lastDotIdx_of_forall_ne out hnd
  have h3 : lastDotIdx (front ++ '.' :: out) = some front.length := by
    simpa using lastDotIdx_append front (lastDotIdx_dot_cons h1)
  have hstep : pySuffixL (front ++ '.' :: out) =
      if 0 < front.length ∧ front.length < (front ++ '.' :: out).length - 1
      then List.drop front.length (front ++ '.' :: out) else [] := by
    simp only [pySuffixL, h3]
  by_cases hf : front = []
  · subst hf
    simp only [List.nil_append] at hstep ⊢
    simp only [List.length_nil, lt_irrefl, false_and, if_false] at hstep
    simpa using hstep
  · have hol : 0 < out.length := List.length_pos.mpr hne
    have hfl : 0 < front.length := List.length_pos.mpr hf
    have hcond : 0 < front.length ∧ front.length < (front ++ '.' :: out).length - 1 := by
      refine ⟨hfl, ?_⟩
      simp only [List.length_append, List.length_cons]
      omega
    rw [hstep, if_pos hcond, List.drop_left, if_neg hf]

theorem splitSlash_ne_nil : ∀ (cs : List Char), splitSlash cs ≠ []
  | [] => by simp [splitSlash]
  | c :: cs => by
    unfold splitSlash
    cases h : splitSlash cs with
    | nil => simp
    | cons hd tl => dsimp; split <;> simp

theorem splitSlash_of_no_slash :
    ∀ (cs : List Char), (∀ c ∈ cs, c ≠ '/') → splitSlash cs = [cs]
  | [], _ => rfl
  | c :: cs, h => by
    have hc : c ≠ '/' := h c (List.mem_cons_self c cs)
    have ih := splitSlash_of_no_slash cs (fun x hx => h x (List.mem_cons_of_mem c hx))
    simp [splitSlash, ih, hc]

theorem mem_splitSlash_subset :
    ∀ (cs p : List Char), p ∈ splitSlash cs → ∀ c ∈ p, c ∈ cs
  | [], p, hp => by
    simp [splitSlash] at hp
    subst hp; simp
  | a :: cs, p, hp => by
    cases h : splitSlash cs with
    | nil => exact absurd h (splitSlash_ne_nil cs)
    | cons hd tl =>
      simp only [splitSlash, h] at hp
      by_cases ha : a = '/'
      · rw [if_pos ha] at hp
        rcases List.mem_cons.mp hp with h1 | h2
        · subst h1; simp
        · intro c hc
          exact List.mem_cons_of_mem _
            (mem_splitSlash_subset cs p (by rw [h]; exact h2) c hc)
      · rw [if_neg ha] at hp
        rcases List.mem_cons.mp hp with h1 | h2
        · subst h1
          intro c hc
          rcases List.mem_cons.mp hc with rfl | hc'
          · simp
          · have hhd : hd ∈ splitSlash cs := by rw [h]; exact List.mem_cons_self hd tl
            exact List.mem_cons_of_mem _ (mem_splitSlash_subset cs hd hhd c hc')
        · intro c hc
          have hpm : p ∈ splitSlash cs := by rw [h]; exact List.mem_cons_of_mem _ h2
          exact List.mem_cons_of_mem _ (mem_splitSlash_subset cs p hpm c hc)

theorem getLastD_mem_or {α : Type} :
    ∀ (l : List α) (d : α), l.getLastD d = d ∨ l.getLastD d ∈ l
  | [], _ => .inl rfl
  | a :: l, d => by
    rw [List.getLastD_cons]
    rcases getLastD_mem_or l a with h | h
    · exact .inr (by rw [h]; exact List.mem_cons_self a l)
    · exact .inr (List.mem_cons_of_mem a h)

theorem pathNameL_subset (cs : List Char) : ∀ c ∈ pathNameL cs, c ∈ cs := by
  unfold pathNameL
  rcases getLastD_mem_or ((splitSlash cs).filter (fun p => p ≠ [])) [] with h | h
  · rw [h]; intro c hc; simp at hc
  · exact mem_splitSlash_subset cs _ (List.mem_of_mem_filter h)

theorem pathNameL_of_no_slash {cs : List Char}
    (h : ∀ c ∈ cs, c ≠ '/') (hne : cs ≠ []) : pathNameL cs = cs := by
  unfold pathNameL
  rw [splitSlash_of_no_slash cs h]
  simp [List.filter, hne]

theorem pySuffixL_eq_nil_of_no_dot {cs : List Char} (h : ∀ c ∈ cs, c ≠ '.') :
    pySuffixL cs = [] := by
  simp [pySuffixL, lastDotIdx_of_forall_ne cs h]

theorem extOfL_of_no_dot {cs : List Char} (h : ∀ c ∈ cs, c ≠ '.') : extOfL cs = [] := by
  have hp : ∀ c ∈ pathNameL cs, c ≠ '.' := fun c hc => h c (pathNameL_subset cs c hc)
  simp [extOfL, pySuffixL_eq_nil_of_no_dot hp]

theorem matrix_no_self_pair : ∀ p ∈ CONVERSIONS, ∀ o ∈ p.2, o.1 ≠ p.1 := by decide

theorem matrix_outputs_wf : ∀ p ∈ CONVERSIONS, ∀ o ∈ p.2,
    o.1.toList ≠ [] ∧ ∀ c ∈ o.1.toList, c ≠ '.' ∧ Char.toLower c = c := by decide

theorem lookupOutputs_mem {ext : String} {outs : List (String × Rule)}
    (h : lookupOutputs ext = some outs) : (ext, outs) ∈ CONVERSIONS := by
  unfold lookupOutputs at h
  cases hf : CONVERSIONS.find? (fun p => p.1 == ext) with
  | none => rw [hf] at h; simp at h
  | some pr =>
    rw [hf] at h
    simp at h
    have hmem := List.mem_of_find?_eq_some hf
    have hpred := List.find?_some hf
    simp at hpred
    have : pr = (ext, outs) := by
      cases pr with
      | mk a b => simp at hpred h; rw [hpred, h]
    rw [this] at hmem
    exact hmem

theorem string_mk_toList (s : String) : String.mk s.toList = s := by
  cases s; rfl

theorem toList_ne_nil {s : String} (h : s ≠ "") : s.toList ≠ [] := by
  intro hc
  apply h
  cases s with
  | mk d =>
    cases d with
    | nil => rfl
    | cons a l => simp [String.toList] at hc

theorem get_input_ext_ok {fn ext : String} (h : get_input_ext fn = .ok ext) :
    ext = extOf fn ∧ ∃ outs, lookupOutputs (extOf fn) = some outs := by
  unfold get_input_ext at h
  cases hl : lookupOutputs (extOf fn) with
  | none => rw [hl] at h; simp at h
  | some outs =>
    rw [hl] at h
    simp at h
    exact ⟨h.symm, outs, rfl⟩

theorem validate_ok_elim {filename : Option String} {target : String} {p m : Nat}
    {v : ValidRequest} (h : validate filename target p m = .ok v) :
    filenameFalsy filename = false ∧
    v.inputExt = extOf (filename.getD "") ∧
    v.outputExt = normTarget target ∧
    p ≤ m ∧
    ∃ outs, lookupOutputs v.inputExt = some outs ∧
      (v.outputExt, v.filterName, v.mimeType) ∈ outs := by
  unfold validate at h
  by_cases hf : filenameFalsy filename = true
  · rw [if_pos hf] at h; exact absurd h (by simp)
  · have hf' : filenameFalsy filename = false := by
      cases hfv : filenameFalsy filename
      · rfl
      · exact absurd hfv hf
    rw [if_neg hf] at h
    cases hg : get_input_ext (filename.getD "") with
    | error e => rw [hg] at h; simp at h
    | ok input_ext =>
      rw [hg] at h
      dsimp only at h
      obtain ⟨hext, outs, houts⟩ := get_input_ext_ok hg
      subst hext
      cases hfind : ((lookupOutputs (extOf (filename.getD ""))).getD []).find?
          (fun o => o.1 == normTarget target) with
      | none => rw [hfind] at h; simp at h
      | some o =>
        obtain ⟨a, fname, mime⟩ := o
        rw [hfind] at h
        dsimp only at h
        by_cases hpm : p > m
        · rw [if_pos hpm] at h; exact absurd h (by simp)
        · rw [if_neg hpm] at h
          simp only [Except.ok.injEq] at h
          have hpred := List.find?_some hfind
          have hmem := List.mem_of_find?_eq_some hfind
          simp only [beq_iff_eq] at hpred
          rw [houts] at hmem
          simp only [Option.getD_some] at hmem
          refine ⟨hf', ?_, ?_, by omega, outs, ?_, ?_⟩
          · rw [← h]
          · rw [← h]
          · rw [← h]; exact houts
          · rw [← h]
            rw [hpred] at hmem
            exact hmem

theorem validate_error_kinds {filename : Option String} {target : String}
    {p m : Nat} {e : Err} (h : validate filename target p m = .error e) :
    e = .MissingFilename ∨ (∃ d, e = .UnsupportedInputFormat d) ∨
    (∃ d, e = .UnsupportedConversionPair d) ∨ (∃ d, e = .PayloadTooLarge d) := by
  unfold validate at h
  by_cases hf : filenameFalsy filename = true
  · rw [if_pos hf] at h
    simp only [Except.error.injEq] at h
    exact .inl h.symm
  · rw [if_neg hf] at h
    cases hg : get_input_ext (filename.getD "") with
    | error e' =>
      rw [hg] at h
      simp only [Except.error.injEq] at h
      unfold get_input_ext at hg
      cases hl : lookupOutputs (extOf (filename.getD "")) with
      | some outs => rw [hl] at hg; simp at hg
      | none =>
        rw [hl] at hg
        simp only [Except.error.injEq] at hg
        exact .inr (.inl ⟨_, by rw [← h, hg]⟩)
    | ok input_ext =>
      rw [hg] at h
      dsimp only at h
      cases hfind : ((lookupOutputs input_ext).getD []).find?
          (fun o => o.1 == normTarget target) with
      | none =>
        rw [hfind] at h
        simp only [Except.error.injEq] at h
        exact .inr (.inr (.inl ⟨_, h.symm⟩))
      | some o =>
        obtain ⟨a, fname, mime⟩ := o
        rw [hfind] at h
        dsimp only at h
        by_cases hpm : p > m
        · rw [if_pos hpm] at h
          simp only [Except.error.injEq] at h
          exact .inr (.inr (.inr ⟨_, h.symm⟩))
        · rw [if_neg hpm] at h
          exact absurd h (by simp)

theorem get_input_ext_error {fn : String} {e : Err}
    (h : get_input_ext fn = .error e) :
    lookupOutputs (extOf fn) = none ∧ e = .UnsupportedInputFormat (inputFormatMsg (extOf fn)) := by
  unfold get_input_ext at h
  cases hl : lookupOutputs (extOf fn) with
  | some outs => rw [hl] at h; simp at h
  | none =>
    rw [hl] at h
    simp only [Except.error.injEq] at h
    exact ⟨rfl, h.symm⟩

theorem filename_of_not_falsy {filename : Option String}
    (h : filenameFalsy filename = false) : filename.getD "" ≠ "" := by
  cases filename with
  | none => simp [filenameFalsy] at h
  | some s =>
    simp only [filenameFalsy, beq_eq_false_iff_ne, ne_eq] at h
    simpa using h

theorem convertHandler_ok {inp : HandlerInput} {v : ValidRequest}
    (hv : validate inp.filename inp.target inp.payload.length inp.maxFileSize = .ok v)
    (ha : admissionCheck inp.semValue = true) :
    convertHandler inp =
      ⟨(executeJob v (inp.filename.getD "") inp.payload inp.engine).1,
       (executeJob v (inp.filename.getD "") inp.payload inp.engine).2, true, true⟩ := by
  unfold convertHandler
  rw [hv]
  dsimp only
  rw [if_pos ha]

/-! ### Claims -/

/-- C3: on every exit path of a conversion job — success, engine non-zero
exit, timeout, missing output, and unexpected exception — the scratch
directory is removed exactly when it was created, before control returns:
`scratchRemoved` always equals `scratchCreated`, and a scratch directory is
created exactly for the requests that pass validation and admission. -/
theorem scratch_dir_always_cleaned (inp : HandlerInput) :
    (convertHandler inp).scratchRemoved = (convertHandler inp).scratchCreated ∧
    ((convertHandler inp).scratchCreated = true ↔
      (∃ v, validate inp.filename inp.target inp.payload.length inp.maxFileSize
          = .ok v) ∧ admissionCheck inp.semValue = true) := by
  unfold convertHandler
  cases hv : validate inp.filename inp.target inp.payload.length inp.maxFileSize with
  | error e =>
    dsimp only
    refine ⟨rfl, ?_⟩
    constructor
    · intro hfalse; exact Bool.noConfusion hfalse
    · rintro ⟨⟨v, hv'⟩, -⟩
      exact Except.noConfusion hv'
  | ok v =>
    dsimp only
    by_cases ha : admissionCheck inp.semValue = true
    · rw [if_pos ha]
      dsimp only
      refine ⟨rfl, ?_⟩
      simp [ha]
    · rw [if_neg ha]
      dsimp only
      refine ⟨rfl, ?_⟩
      constructor
      · intro hfalse; exact Bool.noConfusion hfalse
      · rintro ⟨-, hadm⟩
        exact absurd hadm ha

/-- C4: filename `report.docx` with target `pdf` resolves to the rule
`("writer_pdf_Export", "application/pdf")` and the convert-to directive is
`"pdf:writer_pdf_Export"`; in general the directive is
`outputExt ++ ":" ++ filterName` when the filter name is non-empty and the
bare `outputExt` when it is empty. -/
theorem convert_to_directive_resolution :
    validate (some "report.docx") "pdf" 0 524288000
      = .ok ⟨"docx", "pdf", "writer_pdf_Export", "application/pdf"⟩ ∧
    convertToArg "pdf" "writer_pdf_Export" = "pdf:writer_pdf_Export" ∧
    (∀ output_ext filter_name : String,
      (filter_name ≠ "" →
        convertToArg output_ext filter_name = output_ext ++ ":" ++ filter_name) ∧
      (filter_name = "" → convertToArg output_ext filter_name = output_ext)) := by
  refine ⟨rfl, rfl, fun oe f => ⟨fun h => ?_, fun h => ?_⟩⟩
  · simp [convertToArg, h]
  · simp [convertToArg, h]

/-- Witness for C4: the general directive rule applied at the scenario-A
rule and at an empty filter name. -/
theorem convert_to_directive_resolution_witness :
    convertToArg "pdf" "writer_pdf_Export" = "pdf" ++ ":" ++ "writer_pdf_Export" ∧
    convertToArg "pdf" "" = "pdf" :=
  ⟨(convert_to_directive_resolution.2.2 "pdf" "writer_pdf_Export").1 (by decide),
   (convert_to_directive_resolution.2.2 "pdf" "").2 rfl⟩

/-- C6: when the engine exits with a non-zero status the request fails with
`EngineError` and the outcome event's diagnostic detail is the first 500
characters of the process's error stream. -/
theorem engine_error_truncates_diagnostics (inp : HandlerInput)
    (v : ValidRequest) (rc : Nat) (stderr : String)
    (written : List (String × String))
    (hv : validate inp.filename inp.target inp.payload.length inp.maxFileSize = .ok v)
    (ha : admissionCheck inp.semValue = true)
    (he : inp.engine = .exited rc stderr written) (hrc : rc ≠ 0) :
    (convertHandler inp).response
        = .error (.EngineError ("Conversion failed: " ++ stderr)) ∧
    (convertHandler inp).events
        = [.conversionError v.inputExt v.outputExt (takeChars 500 stderr)] ∧
    (takeChars 500 stderr).toList = stderr.toList.take 500 ∧
    (takeChars 500 stderr).length ≤ 500 := by
  have hb : (rc != 0) = true := by simpa using hrc
  have hex : executeJob v (inp.filename.getD "") inp.payload inp.engine =
      (.error (.EngineError ("Conversion failed: " ++ stderr)),
       [.conversionError v.inputExt v.outputExt (takeChars 500 stderr)]) := by
    rw [he]
    unfold executeJob
    dsimp only
    rw [if_pos hb]
  rw [convertHandler_ok hv ha, hex]
  refine ⟨rfl, rfl, rfl, ?_⟩
  have hlen : (takeChars 500 stderr).length = (stderr.toList.take 500).length := rfl
  rw [hlen]
  exact List.length_take_le 500 stderr.toList

/-- Witness for C6: a concrete request whose engine exits with status 1 and
diagnostic text `boom`. -/
theorem engine_error_truncates_diagnostics_witness :
    (convertHandler ⟨some "a.docx", "pdf", "x", 100, 1, .exited 1 "boom" []⟩).response
        = .error (.EngineError ("Conversion failed: " ++ "boom")) ∧
    (convertHandler ⟨some "a.docx", "pdf", "x", 100, 1, .exited 1 "boom" []⟩).events
        = [.conversionError "docx" "pdf" (takeChars 500 "boom")] ∧
    (takeChars 500 "boom").length ≤ 500 := by
  have h := engine_error_truncates_diagnostics
    ⟨some "a.docx", "pdf", "x", 100, 1, .exited 1 "boom" []⟩
    ⟨"docx", "pdf", "writer_pdf_Export", "application/pdf"⟩
    1 "boom" [] rfl rfl rfl (by decide)
  exact ⟨h.1, h.2.1, h.2.2.2⟩

/-- C1 counterexample: two requests that reach the admission decision
point and emit no outcome event at all. The first is rejected by admission
(`TooManyConcurrentRequests`, zero free permits); the second enters the
job but the engine exits 0 without writing output (`NoOutputProduced`).
Both produce an empty event list, refuting "exactly one event per request
that reached the admission decision point". -/
theorem outcome_event_counterexample :
    (convertHandler ⟨some "a.docx", "pdf", "x", 100, 0, .timedOut⟩).response
        = .error .TooManyConcurrentRequests ∧
    (convertHandler ⟨some "a.docx", "pdf", "x", 100, 0, .timedOut⟩).events.length = 0 ∧
    (convertHandler ⟨some "a.docx", "pdf", "x", 100, 1, .exited 0 "" []⟩).response
        = .error .NoOutputProduced ∧
    (convertHandler ⟨some "a.docx", "pdf", "x", 100, 1, .exited 0 "" []⟩).events.length = 0 :=
  ⟨rfl, rfl, rfl, rfl⟩

/-- C1 (amended): every request emits at most one outcome event, and it
emits exactly one if and only if it ends in success, conversion timeout, or
engine error; admission rejections and missing-output failures (as well as
requests failing validation) emit none. -/
theorem outcome_event_characterization (inp : HandlerInput) :
    (convertHandler inp).events.length ≤ 1 ∧
    ((convertHandler inp).events.length = 1 ↔
      (∃ r, (convertHandler inp).response = .ok r) ∨
      (convertHandler inp).response = .error .ConversionTimeout ∨
      (∃ d, (convertHandler inp).response = .error (.EngineError d))) := by
  cases hv : validate inp.filename inp.target inp.payload.length inp.maxFileSize with
  | error e =>
    have hh : convertHandler inp = ⟨.error e, [], false, false⟩ := by
      unfold convertHandler; rw [hv]
    rw [hh]
    rcases validate_error_kinds hv with h | ⟨d, h⟩ | ⟨d, h⟩ | ⟨d, h⟩ <;> subst h <;> simp
  | ok v =>
    by_cases ha : admissionCheck inp.semValue = true
    · rw [convertHandler_ok hv ha]
      cases he : inp.engine with
      | timedOut => simp [executeJob]
      | crashed exc => simp [executeJob]
      | exited rc stderr written =>
        by_cases hrc : (rc != 0) = true
        · simp [executeJob, hrc]
        · cases hf : List.filter (fun e => globMatch e.1 v.outputExt)
              ((inp.filename.getD "", inp.payload) :: written) with
          | nil => simp [executeJob, hrc, hf]
          | cons f rest => simp [executeJob, hrc, hf]
    · have hh : convertHandler inp =
          ⟨.error .TooManyConcurrentRequests, [], false, false⟩ := by
        unfold convertHandler; rw [hv]; dsimp only; rw [if_neg ha]
      rw [hh]
      simp

/-- Invariant of the permit pool: free permits plus held permits always
equal the configured capacity on every reachable state. -/
theorem reachable_invariant {p : Pool} (h : Reachable p) :
    p.value + p.held = MAX_CONCURRENT := by
  induction h with
  | init => rfl
  | acq hp hacq ih =>
    rename_i q q'
    unfold tryAcquire at hacq
    by_cases hc : admissionCheck q.value = true
    · rw [if_pos hc] at hacq
      have hv : 0 < q.value := (admissionCheck_iff _).mp hc
      cases hacq
      dsimp only
      omega
    · rw [if_neg hc] at hacq; exact Option.noConfusion hacq
  | rel hp hheld ih =>
    unfold releasePermit
    dsimp only
    omega

/-- C2: the admission pool never holds more than `MAX_CONCURRENT` permits;
with all permits held the next acquire attempt is refused outright (and the
endpoint answers `TooManyConcurrentRequests` without entering the job);
after any release a new acquire succeeds. -/
theorem admission_pool_bounded :
    (∀ p : Pool, Reachable p →
      p.held ≤ MAX_CONCURRENT ∧ p.value + p.held = MAX_CONCURRENT) ∧
    (∀ p : Pool, Reachable p → p.held = MAX_CONCURRENT → tryAcquire p = none) ∧
    (∀ p : Pool, (tryAcquire (releasePermit p)).isSome = true) ∧
    (∀ inp : HandlerInput,
      (∃ v, validate inp.filename inp.target inp.payload.length inp.maxFileSize
          = .ok v) →
      admissionCheck inp.semValue = false →
      (convertHandler inp).response = .error .TooManyConcurrentRequests ∧
      (convertHandler inp).scratchCreated = false) := by
  refine ⟨?_, ?_, ?_, ?_⟩
  · intro p hp
    have h := reachable_invariant hp
    exact ⟨by omega, h⟩
  · intro p hp hheld
    have hinv := reachable_invariant hp
    have hv : p.value = 0 := by omega
    unfold tryAcquire
    rw [if_neg]
    intro hc
    have := (admissionCheck_iff _).mp hc
    omega
  · intro p
    unfold tryAcquire releasePermit
    rw [if_pos ((admissionCheck_iff _).mpr (Nat.succ_pos _))]
    rfl
  · rintro inp ⟨v, hv⟩ ha
    have hh : convertHandler inp =
        ⟨.error .TooManyConcurrentRequests, [], false, false⟩ := by
      unfold convertHandler; rw [hv]; dsimp only
      rw [if_neg (by rw [ha]; exact Bool.noConfusion)]
    rw [hh]
    exact ⟨rfl, rfl⟩

/-- Witness for C2: from startup, ten acquires exhaust the pool; the
state with all ten permits held refuses the next acquire, a release makes
an acquire succeed again, and a concrete valid request arriving with zero
free permits is answered with `TooManyConcurrentRequests`. -/
theorem admission_pool_bounded_witness :
    (⟨0, 10⟩ : Pool).held ≤ MAX_CONCURRENT ∧
    tryAcquire ⟨0, 10⟩ = none ∧
    (tryAcquire (releasePermit ⟨0, 10⟩)).isSome = true ∧
    (convertHandler ⟨some "a.docx", "pdf", "xx", 100, 0, .exited 0 "" []⟩).response
        = .error .TooManyConcurrentRequests := by
  have h0 : Reachable initPool := .init
  have h1 : Reachable ⟨9, 1⟩ := .acq h0 rfl
  have h2 : Reachable ⟨8, 2⟩ := .acq h1 rfl
  have h3 : Reachable ⟨7, 3⟩ := .acq h2 rfl
  have h4 : Reachable ⟨6, 4⟩ := .acq h3 rfl
  have h5 : Reachable ⟨5, 5⟩ := .acq h4 rfl
  have h6 : Reachable ⟨4, 6⟩ := .acq h5 rfl
  have h7 : Reachable ⟨3, 7⟩ := .acq h6 rfl
  have h8 : Reachable ⟨2, 8⟩ := .acq h7 rfl
  have h9 : Reachable ⟨1, 9⟩ := .acq h8 rfl
  have h10 : Reachable ⟨0, 10⟩ := .acq h9 rfl
  exact ⟨(admission_pool_bounded.1 _ h10).1,
         admission_pool_bounded.2.1 _ h10 rfl,
         admission_pool_bounded.2.2.1 _,
         (admission_pool_bounded.2.2.2
           ⟨some "a.docx", "pdf", "xx", 100, 0, .exited 0 "" []⟩
           ⟨⟨"docx", "pdf", "writer_pdf_Export", "application/pdf"⟩, rfl⟩ rfl).1⟩

/-- C5: validation fails with `PayloadTooLarge` iff the conversion pair
resolved and the payload byte length strictly exceeds the configured
maximum; the size check runs only after the format pair is validated (an
unresolved pair never yields `PayloadTooLarge`), and a payload of exactly
the configured maximum is accepted. -/
theorem payload_size_strict_check (filename : Option String) (target : String)
    (p m : Nat) :
    ((∃ d, validate filename target p m = .error (.PayloadTooLarge d)) ↔
      pairOK filename target = true ∧ p > m) ∧
    (∀ d, validate filename target p m = .error (.PayloadTooLarge d) →
      d = sizeMsg p m) ∧
    (pairOK filename target = true → p ≤ m →
      ∃ v, validate filename target p m = .ok v) := by
  by_cases hf : filenameFalsy filename = true
  · have hpair : pairOK filename target = false := by
      simp [pairOK, hf]
    have hval : validate filename target p m = .error .MissingFilename := by
      unfold validate; rw [if_pos hf]
    rw [hval, hpair]
    refine ⟨?_, ?_, ?_⟩
    · constructor
      · rintro ⟨d, hd⟩; simp at hd
      · rintro ⟨hc, -⟩; exact Bool.noConfusion hc
    · intro d hd; simp at hd
    · intro hc; exact absurd hc (by simp)
  · have hf' : filenameFalsy filename = false := by
      cases hfv : filenameFalsy filename
      · rfl
      · exact absurd hfv hf
    cases hg : get_input_ext (filename.getD "") with
    | error e' =>
      obtain ⟨hl, he'⟩ := get_input_ext_error hg
      have hval : validate filename target p m = .error e' := by
        unfold validate; rw [if_neg hf, hg]
      have hpair : pairOK filename target = false := by
        simp [pairOK, hl]
      rw [hval, hpair, he']
      refine ⟨?_, ?_, ?_⟩
      · constructor
        · rintro ⟨d, hd⟩; simp at hd
        · rintro ⟨hc, -⟩; exact Bool.noConfusion hc
      · intro d hd; simp at hd
      · intro hc; exact absurd hc (by simp)
    | ok input_ext =>
      obtain ⟨hexteq, outs0, houts0⟩ := get_input_ext_ok hg
      cases hfind : ((lookupOutputs input_ext).getD []).find?
          (fun o => o.1 == normTarget target) with
      | none =>
        have hval : validate filename target p m =
            .error (.UnsupportedConversionPair
              (pairMsg input_ext (normTarget target)
                ((lookupOutputs input_ext).getD []))) := by
          unfold validate; rw [if_neg hf, hg]; dsimp only; rw [hfind]
        have hpair : pairOK filename target = false := by
          simp only [pairOK, hf', Bool.not_false, Bool.true_and]
          rw [← hexteq, hfind]
          rfl
        rw [hval, hpair]
        refine ⟨?_, ?_, ?_⟩
        · constructor
          · rintro ⟨d, hd⟩; simp at hd
          · rintro ⟨hc, -⟩; exact Bool.noConfusion hc
        · intro d hd; simp at hd
        · intro hc; exact absurd hc (by simp)
      | some o =>
        obtain ⟨a, fname, mime⟩ := o
        have hvali : validate filename target p m =
            if p > m then .error (.PayloadTooLarge (sizeMsg p m))
            else .ok ⟨input_ext, normTarget target, fname, mime⟩ := by
          unfold validate; rw [if_neg hf, hg]; dsimp only; rw [hfind]
        have hpair : pairOK filename target = true := by
          simp only [pairOK, hf', Bool.not_false, Bool.true_and]
          rw [← hexteq, hfind]
          rfl
        by_cases hpm : p > m
        · rw [hvali, if_pos hpm, hpair]
          refine ⟨?_, ?_, ?_⟩
          · simp [hpm]
          · intro d hd
            simp only [Except.error.injEq, Err.PayloadTooLarge.injEq] at hd
            exact hd.symm
          · intro _ hle; omega
        · rw [hvali, if_neg hpm, hpair]
          refine ⟨?_, ?_, ?_⟩
          · constructor
            · rintro ⟨d, hd⟩; simp at hd
            · rintro ⟨-, hgt⟩; exact absurd hgt hpm
          · intro d hd; simp at hd
          · intro _ _; exact ⟨_, rfl⟩

/-- Witness for C5: a 101-byte payload against a 100-byte maximum is
rejected as too large, and a payload of exactly the maximum is accepted. -/
theorem payload_size_strict_check_witness :
    (∃ d, validate (some "a.docx") "pdf" 101 100 = .error (.PayloadTooLarge d)) ∧
    (∃ v, validate (some "a.docx") "pdf" 100 100 = .ok v) :=
  ⟨(payload_size_strict_check (some "a.docx") "pdf" 101 100).1.mpr
     ⟨rfl, by omega⟩,
   (payload_size_strict_check (some "a.docx") "pdf" 100 100).2.2 rfl (by omega)⟩

/-- C7: the Format Matrix declares no self-conversion pair for any input
extension; whenever the derived input extension equals the normalized
target (whatever the letter case of the request), validation fails with
`UnsupportedConversionPair`; concretely, `sheet.xlsx` with target `XLSX`
fails with that error. -/
theorem no_self_conversion_pair (e : String) (he : e ∈ inputKeys)
    (filename : Option String) (target : String) (p m : Nat) :
    ((lookupOutputs e).getD []).find? (fun o => o.1 == e) = none ∧
    (filenameFalsy filename = false → extOf (filename.getD "") = e →
      normTarget target = e →
      validate filename target p m = .error (.UnsupportedConversionPair
        (pairMsg e e ((lookupOutputs e).getD [])))) ∧
    validate (some "sheet.xlsx") "XLSX" 0 100 = .error (.UnsupportedConversionPair
      "Cannot convert .xlsx to .xlsx. Available: csv, ods, pdf, xls") := by
  have hfind : ∀ x ∈ inputKeys,
      ((lookupOutputs x).getD []).find? (fun o => o.1 == x) = none := by decide
  refine ⟨hfind e he, ?_, rfl⟩
  intro hfal hext hnorm
  obtain ⟨pr, hpr, hpr1⟩ := List.mem_map.mp he
  have hsome : (CONVERSIONS.find? (fun q => q.1 == e)).isSome = true :=
    List.find?_isSome.mpr ⟨pr, hpr, by simp [hpr1]⟩
  cases hl : CONVERSIONS.find? (fun q => q.1 == e) with
  | none => rw [hl] at hsome; exact Bool.noConfusion hsome
  | some found =>
    have hlook : lookupOutputs e = some found.2 := by
      unfold lookupOutputs; rw [hl]; rfl
    unfold validate
    rw [if_neg (by rw [hfal]; exact Bool.noConfusion)]
    have hg : get_input_ext (filename.getD "") = .ok e := by
      unfold get_input_ext
      rw [hext, hlook]
    rw [hg]
    dsimp only
    simp only [hnorm]
    rw [hfind e he]

/-- Witness for C7: the self-pair absence and the mixed-case scenario C,
applied at `xlsx`. -/
theorem no_self_conversion_pair_witness :
    ((lookupOutputs "xlsx").getD []).find? (fun o => o.1 == "xlsx") = none ∧
    validate (some "sheet.xlsx") "XLSX" 0 100 = .error (.UnsupportedConversionPair
      (pairMsg "xlsx" "xlsx" ((lookupOutputs "xlsx").getD []))) := by
  have h := no_self_conversion_pair "xlsx" (by decide) (some "sheet.xlsx") "XLSX" 0 100
  exact ⟨h.1, h.2.1 rfl rfl rfl⟩

/-- C9: a non-empty filename containing no dot derives the empty extension,
which is not in the Format Matrix, so validation fails with
`UnsupportedInputFormat` — while `MissingFilename` is raised exactly when
the filename is absent or empty. -/
theorem no_dot_filename_unsupported (fn target : String) (p m : Nat)
    (hne : fn ≠ "") (hnd : ∀ c ∈ fn.toList, c ≠ '.') :
    validate (some fn) target p m
      = .error (.UnsupportedInputFormat (inputFormatMsg "")) ∧
    (∀ filename : Option String,
      validate filename target p m = .error .MissingFilename ↔
        filenameFalsy filename = true) := by
  constructor
  · have hext : extOf fn = "" := by
      unfold extOf
      rw [extOfL_of_no_dot hnd]
    unfold validate
    rw [if_neg (c := filenameFalsy (some fn) = true) (by simp [filenameFalsy, hne])]
    have hg : get_input_ext ((some fn).getD "") = .error
        (.UnsupportedInputFormat (inputFormatMsg "")) := by
      simp only [Option.getD_some]
      unfold get_input_ext
      rw [hext]
      rfl
    rw [hg]
  · intro filename
    constructor
    · intro h
      by_cases hf : filenameFalsy filename = true
      · exact hf
      · exfalso
        unfold validate at h
        rw [if_neg hf] at h
        cases hg : get_input_ext (filename.getD "") with
        | error e' =>
          obtain ⟨-, he'⟩ := get_input_ext_error hg
          rw [hg] at h
          simp only [Except.error.injEq] at h
          rw [he'] at h
          exact Err.noConfusion h
        | ok input_ext =>
          rw [hg] at h
          dsimp only at h
          cases hfind : ((lookupOutputs input_ext).getD []).find?
              (fun o => o.1 == normTarget target) with
          | none => rw [hfind] at h; simp at h
          | some o =>
            obtain ⟨a, fname, mime⟩ := o
            rw [hfind] at h
            dsimp only at h
            by_cases hpm : p > m
            · rw [if_pos hpm] at h; simp at h
            · rw [if_neg hpm] at h; simp at h
    · intro hf
      unfold validate
      rw [if_pos hf]

/-- Witness for C9: the dotless filename `README` fails with
`UnsupportedInputFormat`, and an absent filename fails with
`MissingFilename`. -/
theorem no_dot_filename_unsupported_witness :
    validate (some "README") "pdf" 0 0
      = .error (.UnsupportedInputFormat (inputFormatMsg "")) ∧
    validate none "pdf" 0 0 = .error .MissingFilename := by
  have h := no_dot_filename_unsupported "README" "pdf" 0 0 (by decide) (by decide)
  exact ⟨h.1, (h.2 none).mpr rfl⟩

/-- For any request that passes validation, the staged input file — whose
name is the original filename, ending in a dot followed by the raw input
extension — never matches the output glob pattern `*.outputExt`: a match
would force the derived input extension to equal the output extension,
and the matrix has no self-conversion pair. -/
theorem staged_input_never_matches {filename : Option String} {target : String}
    {p m : Nat} {v : ValidRequest}
    (h : validate filename target p m = .ok v) :
    globMatch (filename.getD "") v.outputExt = false := by
  obtain ⟨hfal, hin, -, -, outs, houts, hmem⟩ := validate_ok_elim h
  have hpair : (v.inputExt, outs) ∈ CONVERSIONS := lookupOutputs_mem houts
  have hwf := matrix_outputs_wf _ hpair _ hmem
  have hself := matrix_no_self_pair _ hpair _ hmem
  cases hgm : globMatch (filename.getD "") v.outputExt with
  | false => rfl
  | true =>
    exfalso
    unfold globMatch at hgm
    rw [Bool.and_eq_true] at hgm
    obtain ⟨hslash, hsuf⟩ := hgm
    have hnoslash : ∀ c ∈ (filename.getD "").toList, c ≠ '/' := by
      intro c hc hc'
      subst hc'
      rw [Bool.not_eq_true'] at hslash
      simp [List.contains] at hslash
      exact hslash hc
    have hsuffix : ('.' :: v.outputExt.toList) <:+ (filename.getD "").toList :=
      List.isSuffixOf_iff_suffix.mp hsuf
    obtain ⟨front, hfront⟩ := hsuffix
    have hfn_ne : (filename.getD "") ≠ "" := filename_of_not_falsy hfal
    have hfn_toList_ne : (filename.getD "").toList ≠ [] := toList_ne_nil hfn_ne
    have hnd : ∀ c ∈ v.outputExt.toList, c ≠ '.' := fun c hc => (hwf.2 c hc).1
    have hlower : ∀ c ∈ v.outputExt.toList, Char.toLower c = c :=
      fun c hc => (hwf.2 c hc).2
    have hne_out : v.outputExt.toList ≠ [] := hwf.1
    have hpath : pathNameL (filename.getD "").toList = (filename.getD "").toList :=
      pathNameL_of_no_slash hnoslash hfn_toList_ne
    have hsuffval : pySuffixL (filename.getD "").toList =
        if front = [] then [] else '.' :: v.outputExt.toList := by
      rw [← hfront]
      exact pySuffixL_decomp hnd hne_out
    by_cases hfr : front = []
    · -- the whole filename is "." ++ outputExt : no suffix, ext is empty
      have hext0 : extOf (filename.getD "") = "" := by
        unfold extOf extOfL
        rw [hpath, hsuffval, if_pos hfr]
        rfl
      rw [hext0] at hin
      rw [hin] at houts
      exact Option.noConfusion houts
    · -- the derived input extension equals the output extension
      have hmap : v.outputExt.toList.map Char.toLower = v.outputExt.toList := by
        rw [List.map_congr_left hlower]
        simp
      have hdrop : (('.' :: v.outputExt.toList).map Char.toLower).dropWhile
          (fun c => c = '.') = v.outputExt.toList := by
        rw [List.map_cons, hmap]
        rw [List.dropWhile_cons]
        rw [if_pos (by simp)]
        cases hout : v.outputExt.toList with
        | nil => exact absurd hout hne_out
        | cons c0 rest =>
          rw [List.dropWhile_cons, if_neg]
          simp only [decide_eq_true_eq]
          exact hnd c0 (by rw [hout]; exact List.mem_cons_self c0 rest)
      have hext : extOf (filename.getD "") = v.outputExt := by
        unfold extOf extOfL
        rw [hpath, hsuffval, if_neg hfr, hdrop, string_mk_toList]
      rw [hext] at hin
      exact hself hin.symm

/-- C10: no declared conversion pair maps an extension to itself and input
extensions contain no dots, so the staged input file can never match the
output search pattern `*.outputExt`; consequently a successful response is
always read back from a file the engine wrote, never from the staged
input. -/
theorem success_reads_engine_output :
    (∀ pr ∈ CONVERSIONS, ∀ o ∈ pr.2, o.1 ≠ pr.1) ∧
    (∀ e ∈ inputKeys, ∀ c ∈ e.toList, c ≠ '.') ∧
    (∀ (filename : Option String) (target : String) (p m : Nat)
        (v : ValidRequest),
      validate filename target p m = .ok v →
      globMatch (filename.getD "") v.outputExt = false) ∧
    (∀ (inp : HandlerInput) (v : ValidRequest) (rc : Nat) (stderr : String)
        (written : List (String × String)) (content mt : String),
      validate inp.filename inp.target inp.payload.length inp.maxFileSize = .ok v →
      inp.engine = .exited rc stderr written →
      (convertHandler inp).response = .ok (content, mt) →
      ∃ nm, (nm, content) ∈ written) := by
  refine ⟨by decide, by decide,
    fun filename target p m v h => staged_input_never_matches h, ?_⟩
  intro inp v rc stderr written content mt hv he hres
  by_cases ha : admissionCheck inp.semValue = true
  · rw [convertHandler_ok hv ha] at hres
    dsimp only at hres
    rw [he] at hres
    unfold executeJob at hres
    dsimp only at hres
    by_cases hrc : (rc != 0) = true
    · rw [if_pos hrc] at hres; exact absurd hres (by simp)
    · rw [if_neg hrc] at hres
      cases hfilter : List.filter (fun e => globMatch e.1 v.outputExt)
          ((inp.filename.getD "", inp.payload) :: written) with
      | nil => rw [hfilter] at hres; exact absurd hres (by simp)
      | cons f rest =>
        rw [hfilter] at hres
        dsimp only at hres
        simp only [Except.ok.injEq, Prod.mk.injEq] at hres
        have hf_mem : f ∈ List.filter (fun e => globMatch e.1 v.outputExt)
            ((inp.filename.getD "", inp.payload) :: written) := by
          rw [hfilter]; exact List.mem_cons_self f rest
        have hglob : globMatch f.1 v.outputExt = true := by
          have h0 := List.of_mem_filter hf_mem
          simpa using h0
        have hmem : f ∈ (inp.filename.getD "", inp.payload) :: written :=
          List.mem_of_mem_filter hf_mem
        rcases List.mem_cons.mp hmem with hstag | hwr
        · exfalso
          have hnever := staged_input_never_matches hv
          rw [hstag] at hglob
          dsimp only at hglob
          rw [hnever] at hglob
          exact Bool.noConfusion hglob
        · refine ⟨f.1, ?_⟩
          have : (f.1, content) = f := by rw [← hres.1]
          rw [this]
          exact hwr
  · have hh : convertHandler inp =
        ⟨.error .TooManyConcurrentRequests, [], false, false⟩ := by
      unfold convertHandler; rw [hv]; dsimp only; rw [if_neg ha]
    rw [hh] at hres
    exact absurd hres (by simp)

/-- Witness for C10: the staged `a.docx` does not match `*.pdf`, and the
successful response's bytes come from the engine-written `a.pdf`. -/
theorem success_reads_engine_output_witness :
    globMatch "a.docx" "pdf" = false ∧
    ∃ nm, (nm, "OUT") ∈ [("a.pdf", "OUT")] :=
  ⟨success_reads_engine_output.2.2.1 (some "a.docx") "pdf" 1 100
     ⟨"docx", "pdf", "writer_pdf_Export", "application/pdf"⟩ rfl,
   success_reads_engine_output.2.2.2
     ⟨some "a.docx", "pdf", "x", 100, 1, .exited 0 "" [("a.pdf", "OUT")]⟩
     ⟨"docx", "pdf", "writer_pdf_Export", "application/pdf"⟩ 0 ""
     [("a.pdf", "OUT")] "OUT" "application/pdf" rfl rfl rfl⟩

/-- C8: the `UnsupportedInputFormat` message enumerates every supported
input extension sorted alphabetically (the sort of the matrix keys is a
sorted permutation of them), and the `UnsupportedConversionPair` message
enumerates exactly the valid outputs of the request's input extension,
sorted alphabetically. -/
theorem error_messages_enumerate_sorted :
    (∀ fn : String, lookupOutputs (extOf fn) = none →
      get_input_ext fn = .error (.UnsupportedInputFormat
        ("Unsupported input format: ." ++ extOf fn ++ ". Supported: " ++
          joinComma (pySorted inputKeys)))) ∧
    pySorted inputKeys =
      ["csv", "doc", "docx", "odp", "ods", "odt", "ppt", "pptx", "rtf",
       "xls", "xlsx"] ∧
    List.Sorted (fun a b => strLe a b = true) (pySorted inputKeys) ∧
    List.Perm (pySorted inputKeys) inputKeys ∧
    (∀ (filename : Option String) (target : String) (p m : Nat)
        (input_ext : String),
      filenameFalsy filename = false →
      get_input_ext (filename.getD "") = .ok input_ext →
      ((lookupOutputs input_ext).getD []).find?
          (fun o => o.1 == normTarget target) = none →
      validate filename target p m = .error (.UnsupportedConversionPair
        ("Cannot convert ." ++ input_ext ++ " to ." ++ normTarget target ++
          ". Available: " ++
          joinComma (pySorted (((lookupOutputs input_ext).getD []).map
            (fun o => o.1)))))) ∧
    (∀ e ∈ inputKeys,
      List.Sorted (fun a b => strLe a b = true)
        (pySorted (((lookupOutputs e).getD []).map (fun o => o.1))) ∧
      List.Perm (pySorted (((lookupOutputs e).getD []).map (fun o => o.1)))
        (((lookupOutputs e).getD []).map (fun o => o.1))) := by
  refine ⟨?_, by decide, by decide, by decide, ?_, by decide⟩
  · intro fn hl
    unfold get_input_ext
    rw [hl]
    rfl
  · intro filename target p m input_ext hfal hg hfind
    unfold validate
    rw [if_neg (by rw [hfal]; exact Bool.noConfusion), hg]
    dsimp only
    rw [hfind]
    rfl

/-- Witness for C8: the input-format message for `a.nope` and the
pair message for scenario B (`data.csv` to `pptx`), with the sortedness of
csv's enumerated outputs. -/
theorem error_messages_enumerate_sorted_witness :
    get_input_ext "a.nope" = .error (.UnsupportedInputFormat
      ("Unsupported input format: ." ++ extOf "a.nope" ++ ". Supported: " ++
        joinComma (pySorted inputKeys))) ∧
    validate (some "data.csv") "pptx" 0 100 = .error (.UnsupportedConversionPair
      ("Cannot convert ." ++ "csv" ++ " to ." ++ normTarget "pptx" ++
        ". Available: " ++
        joinComma (pySorted (((lookupOutputs "csv").getD []).map
          (fun o => o.1))))) ∧
    List.Sorted (fun a b => strLe a b = true)
      (pySorted (((lookupOutputs "csv").getD []).map (fun o => o.1))) :=
  ⟨error_messages_enumerate_sorted.1 "a.nope" rfl,
   error_messages_enumerate_sorted.2.2.2.2.1 (some "data.csv") "pptx" 0 100
     "csv" rfl rfl rfl,
   (error_messages_enumerate_sorted.2.2.2.2.2 "csv" (by decide)).1⟩

end LibreConvert
